import Mathlib

/-!
Verification development for the face-lock compositing pipeline of the
fitness-backend repository (file app/api/transform-gemini/route.ts).

The TypeScript source is shallowly embedded:
* JavaScript numbers are modelled as exact rationals (and as reals where
  Math.sqrt appears); Math.floor, Math.ceil and Math.round become the
  integer-valued floor, ceil and round-half-up on those fields.
* Byte buffers are modelled as functions from indices to natural numbers
  (bytes) or as lists; tensors carry their dims list and flat data list.
* External effects (the onnx session, sharp image decoding, the sharp
  compositing pipeline) are modelled by their observable outcomes, passed
  as explicit parameters; a rejected promise (a thrown exception) is an
  Except.error value.
-/

/-- Math.round in JavaScript: round half toward positive infinity. -/
def jsRound (q : ℚ) : ℤ := ⌊q + 1 / 2⌋

/-- FaceBox from the source: type FaceBox has numeric fields x, y, w, h.
All boxes produced by decodeRetinaOutput and expandBox have integer
coordinates, so the fields are modelled as integers. -/
structure FaceBox where
  x : ℤ
  y : ℤ
  w : ℤ
  h : ℤ
  deriving DecidableEq, Repr

/-! ### Model Resource Manager (getRetinaSession, lines 33-49)

The module-level variable retinaSession is the cache state (none when the
variable still holds null).  The outcome of the load attempt (fs.access
plus InferenceSession.create) is an explicit parameter: success yields a
session handle, failure means the try block threw.  A call returns the
result together with the new cache state and a flag recording whether the
expensive load was attempted on this call. -/

/-- Outcome of one attempt to load the onnx model from disk. -/
inductive LoadOutcome where
  | success (s : ℕ)
  | failure
  deriving DecidableEq, Repr

/-- getRetinaSession: if the cache is non-null return it (no load attempt);
otherwise attempt the load.  On success the session is stored in the cache
and returned; on failure (the catch branch) null is returned and the cache
is left unchanged, i.e. still null.  Result: (returned session, new cache
state, whether a load was attempted). -/
def getRetinaSession (cache : Option ℕ) (load : LoadOutcome) :
    Option ℕ × Option ℕ × Bool :=
  match cache with
  | some s => (some s, some s, false)
  | none =>
    match load with
    | .success s => (some s, some s, true)
    | .failure => (none, none, true)

/-! ### Geometry utilities: the letterbox transform (spec section 4.1)

The scale/pad formulas appear twice in the source: prepareRetinaInput
(lines 82-86, with Math.round applied to the scaled width before padding)
and decodeRetinaOutput (lines 133-135, unrounded).  The claims C5 formulas
are the unrounded ones, identical to decodeRetinaOutput. -/

/-- Uniform letterbox scale: min(dstSize/srcW, dstSize/srcH). -/
def letterboxScale (srcW srcH dstSize : ℕ) : ℚ :=
  min ((dstSize : ℚ) / srcW) ((dstSize : ℚ) / srcH)

/-- Horizontal padding: floor((dstSize - srcW*scale)/2), as in
decodeRetinaOutput line 134. -/
def letterboxPadX (srcW srcH dstSize : ℕ) : ℤ :=
  ⌊((dstSize : ℚ) - srcW * letterboxScale srcW srcH dstSize) / 2⌋

/-- Vertical padding: floor((dstSize - srcH*scale)/2), as in
decodeRetinaOutput line 135. -/
def letterboxPadY (srcW srcH dstSize : ℕ) : ℤ :=
  ⌊((dstSize : ℚ) - srcH * letterboxScale srcW srcH dstSize) / 2⌋

/-- Forward letterbox map on the horizontal axis: src coordinate to
detector-input coordinate. -/
def letterboxFwdX (srcW srcH dstSize : ℕ) (x : ℚ) : ℚ :=
  x * letterboxScale srcW srcH dstSize + letterboxPadX srcW srcH dstSize

/-- Forward letterbox map on the vertical axis. -/
def letterboxFwdY (srcW srcH dstSize : ℕ) (y : ℚ) : ℚ :=
  y * letterboxScale srcW srcH dstSize + letterboxPadY srcW srcH dstSize

/-- Inverse letterbox map on the horizontal axis, as in decodeRetinaOutput
line 136: (coord - padLeft) / scale. -/
def letterboxInvX (srcW srcH dstSize : ℕ) (c : ℚ) : ℚ :=
  (c - letterboxPadX srcW srcH dstSize) / letterboxScale srcW srcH dstSize

/-- Inverse letterbox map on the vertical axis. -/
def letterboxInvY (srcW srcH dstSize : ℕ) (c : ℚ) : ℚ :=
  (c - letterboxPadY srcW srcH dstSize) / letterboxScale srcW srcH dstSize

/-! ### Compositor control flow (faceLockComposite, lines 203-287, and its
call site in POST, lines 400-404)

The sharp library calls are external: sharp(buf).metadata() either yields
a width/height pair or rejects (for bytes that are not a decodable image);
detectFace yields an optional FaceBox; the extract/resize/composite
pipeline yields the composited bytes.  A rejected await is a thrown
exception, modelled as Except.error. -/

/-- faceLockComposite: the short-circuiting sequence of lines 207-287.
Parameters carry the outcomes of the external calls, in source order:
the session from getRetinaSession, the two metadata results (none means
sharp rejected, i.e. the buffer is not a decodable image), the two
detectFace results, and the bytes the sharp compositing pipeline would
produce.  Note that a metadata rejection happens before the 32-pixel size
check and is NOT caught inside this function: it propagates to the caller
as an exception (Except.error). -/
def faceLockComposite (session : Option ℕ)
    (origMeta genMeta : Option (ℕ × ℕ))
    (detectOrig detectGen : Option FaceBox)
    (composited generated : List ℕ) : Except String (List ℕ) :=
  match session with
  | none => .ok generated
  | some _ =>
    match origMeta with
    | none => .error "unsupported image format"
    | some (origW, origH) =>
      match genMeta with
      | none => .error "unsupported image format"
      | some (genW, genH) =>
        if origW < 32 ∨ origH < 32 ∨ genW < 32 ∨ genH < 32 then .ok generated
        else
          match detectOrig, detectGen with
          | some _, some _ => .ok composited
          | _, _ => .ok generated

/-- The POST handler's guard around faceLockComposite (lines 400-404):
the await is wrapped in a try/catch whose catch branch keeps the generated
image.  Any exception is absorbed here, outside faceLockComposite. -/
def faceLockGuarded (session : Option ℕ)
    (origMeta genMeta : Option (ℕ × ℕ))
    (detectOrig detectGen : Option FaceBox)
    (composited generated : List ℕ) : List ℕ :=
  match faceLockComposite session origMeta genMeta detectOrig detectGen
      composited generated with
  | .ok b => b
  | .error _ => generated

/-! ### Face Detector Adapter: input preparation (prepareRetinaInput,
lines 76-101) and the tensor shape passed to the session (detectFace,
lines 160-165)

The rgba parameter is the raw RGBA byte buffer from sharp: four bytes per
pixel in row-major order, red at offset 0, green at 1, blue at 2, alpha
at 3 of each quad.  It is modelled as a total function from byte index to
byte value.  The Float32Array is modelled as a total function from flat
index to the (integer) value written there, obtained by inverting the
index formula c*size*size + y*size + x of lines 95-97. -/

/-- RETINA_INPUT_SIZE (line 13). -/
def RETINA_INPUT_SIZE : ℕ := 640

/-- Scaled width Math.round(w * scale) of line 83. -/
def retinaNw (w h : ℕ) : ℤ :=
  jsRound ((w : ℚ) * letterboxScale w h RETINA_INPUT_SIZE)

/-- Scaled height Math.round(h * scale) of line 84. -/
def retinaNh (w h : ℕ) : ℤ :=
  jsRound ((h : ℚ) * letterboxScale w h RETINA_INPUT_SIZE)

/-- padLeft of line 85: Math.floor((size - nw) / 2).  Unlike
decodeRetinaOutput, prepareRetinaInput pads using the rounded width. -/
def retinaPadLeft (w h : ℕ) : ℤ :=
  ⌊((RETINA_INPUT_SIZE : ℚ) - retinaNw w h) / 2⌋

/-- padTop of line 86: Math.floor((size - nh) / 2). -/
def retinaPadTop (w h : ℕ) : ℤ :=
  ⌊((RETINA_INPUT_SIZE : ℚ) - retinaNh w h) / 2⌋

/-- Sampled source column of line 89:
Math.min(w - 1, Math.max(0, Math.floor((x - padLeft) / scale))). -/
def retinaSx (w h x : ℕ) : ℤ :=
  min ((w : ℤ) - 1)
    (max 0 ⌊((x : ℚ) - retinaPadLeft w h) / letterboxScale w h RETINA_INPUT_SIZE⌋)

/-- Sampled source row of line 90. -/
def retinaSy (w h y : ℕ) : ℤ :=
  min ((h : ℤ) - 1)
    (max 0 ⌊((y : ℚ) - retinaPadTop w h) / letterboxScale w h RETINA_INPUT_SIZE⌋)

/-- Byte index of the sampled pixel quad, line 91: i = (sy * w + sx) * 4. -/
def retinaPixIndex (w h x y : ℕ) : ℕ :=
  ((retinaSy w h y * w + retinaSx w h x) * 4).toNat

/-- Length of the allocated Float32Array, line 78: 1 * 3 * size * size. -/
def prepareRetinaLength : ℕ :=
  1 * 3 * RETINA_INPUT_SIZE * RETINA_INPUT_SIZE

/-- The tensor dims passed to the session in detectFace lines 160-165. -/
def retinaTensorDims : List ℕ :=
  [1, 3, RETINA_INPUT_SIZE, RETINA_INPUT_SIZE]

/-- prepareRetinaInput, lines 76-101, as a function from flat array index
to the value stored there.  The loop writes, for each destination pixel
(x, y) with r/g/b read at offsets 0/1/2 of the sampled quad,
  arr[0*size*size + y*size + x] = b - 104,
  arr[1*size*size + y*size + x] = g - 117,
  arr[2*size*size + y*size + x] = r - 123;
the flat index idx is decomposed back into channel c = idx / size²,
y = (idx mod size²) / size, x = idx mod size. -/
def prepareRetinaInput (rgba : ℕ → ℕ) (w h : ℕ) (idx : ℕ) : ℤ :=
  let size := RETINA_INPUT_SIZE
  let c := idx / (size * size)
  let y := idx % (size * size) / size
  let x := idx % size
  let i := retinaPixIndex w h x y
  if c = 0 then (rgba (i + 2) : ℤ) - 104
  else if c = 1 then (rgba (i + 1) : ℤ) - 117
  else (rgba i : ℤ) - 123

/-! ### Face Detector Adapter: output decoding (decodeRetinaOutput,
lines 103-149)

An onnx output tensor is its dims list and its flat float data; the output
map is the list of tensors in name-iteration order.  Out-of-range indexing
is modelled by List.getD with default 0; for well-formed tensors (data
length equal to the product of dims) every access the code performs is in
range, so the default is never consulted there.  The try/catch wrapping
the whole body (lines 108, 146-148) makes the function total: the model
returns an Option with no error case at all. -/

/-- One named output tensor: its dims and its flat data. -/
structure OrtTensor where
  dims : List ℕ
  data : List ℚ
  deriving DecidableEq, Repr

/-- The tensor-identification loop of lines 109-119: the last tensor whose
dims have length 3 and dims[2] at least 4 becomes the boxes data; the last
tensor whose dims have length at least 2 and dims[1] equal to 2 or 1
becomes the scores data.  A single tensor may match both tests. -/
def pickTensors (outputs : List OrtTensor) :
    Option (List ℚ) × Option (List ℚ) :=
  outputs.foldl
    (fun acc t =>
      let b := if t.dims.length = 3 ∧ 4 ≤ t.dims.getD 2 0 then some t.data else acc.1
      let s := if 2 ≤ t.dims.length ∧ (t.dims.getD 1 0 = 2 ∨ t.dims.getD 1 0 = 1)
        then some t.data else acc.2
      (b, s))
    (none, none)

/-- The per-detection score read of line 126:
scores.length > nDet * 2 ? scores[i * 2 + 1] ?? scores[i] : scores[i].
The nullish fallback fires exactly when index i * 2 + 1 is out of range. -/
def scoreAt (scores : List ℚ) (nDet i : ℕ) : ℚ :=
  if nDet * 2 < scores.length then scores.getD (i * 2 + 1) (scores.getD i 0)
  else scores.getD i 0

/-- One iteration of the selection loop of lines 125-131: a detection
replaces the current best only when its score strictly exceeds the current
best score. -/
def bestStep (scores : List ℚ) (nDet : ℕ) (acc : ℕ × ℚ) (i : ℕ) : ℕ × ℚ :=
  if acc.2 < scoreAt scores nDet i then (i, scoreAt scores nDet i) else acc

/-- The selection loop of lines 122-131: bestIdx starts at 0 and bestScore
at the 0.5 floor. -/
def bestDetection (scores : List ℚ) (nDet : ℕ) : ℕ × ℚ :=
  (List.range nDet).foldl (bestStep scores nDet) (0, 1 / 2)

/-- Lines 133-145: decode the box at a given detection index from
detector-input coordinates back to image coordinates, clamp, and discard
boxes smaller than 16 pixels in either dimension. -/
def decodeBoxAt (boxes : List ℚ) (imgW imgH : ℕ) (idx : ℕ) : Option FaceBox :=
  let scale := letterboxScale imgW imgH RETINA_INPUT_SIZE
  let padLeft := letterboxPadX imgW imgH RETINA_INPUT_SIZE
  let padTop := letterboxPadY imgW imgH RETINA_INPUT_SIZE
  let x1 := (boxes.getD (idx * 4) 0 - padLeft) / scale
  let y1 := (boxes.getD (idx * 4 + 1) 0 - padTop) / scale
  let x2 := (boxes.getD (idx * 4 + 2) 0 - padLeft) / scale
  let y2 := (boxes.getD (idx * 4 + 3) 0 - padTop) / scale
  let x := max 0 ⌊x1⌋
  let y := max 0 ⌊y1⌋
  let w := min ((imgW : ℤ) - x) (max 1 ⌈x2 - x1⌉)
  let h := min ((imgH : ℤ) - y) (max 1 ⌈y2 - y1⌉)
  if w < 16 ∨ h < 16 then none else some ⟨x, y, w, h⟩

/-- decodeRetinaOutput, lines 103-149: identify the boxes and scores
tensors, pick the best detection (the score loop runs only when a scores
tensor was found and its length covers nDet), and decode that box. -/
def decodeRetinaOutput (outputs : List OrtTensor) (imgW imgH : ℕ) :
    Option FaceBox :=
  match pickTensors outputs with
  | (none, _) => none
  | (some boxes, scoresOpt) =>
    let nDet := boxes.length / 4
    let best :=
      match scoresOpt with
      | some scores =>
        if nDet ≤ scores.length then bestDetection scores nDet else (0, 1 / 2)
      | none => (0, (1 : ℚ) / 2)
    decodeBoxAt boxes imgW imgH best.1

/-! ### Face Locator (expandBox, lines 170-181) -/

/-- expandBox: pad the tight box by 15 percent of its width and height on
each side, clamp to the image bounds, and force strictly positive size. -/
def expandBox (box : FaceBox) (imgW imgH : ℕ) : FaceBox :=
  let pad : ℚ := 15 / 100
  let dw : ℚ := box.w * pad
  let dh : ℚ := box.h * pad
  let x := max 0 ⌊(box.x : ℚ) - dw⌋
  let y := max 0 ⌊(box.y : ℚ) - dh⌋
  let x2 := min (imgW : ℤ) ⌈(box.x : ℚ) + box.w + dw⌉
  let y2 := min (imgH : ℤ) ⌈(box.y : ℚ) + box.h + dh⌉
  ⟨x, y, max 1 (x2 - x), max 1 (y2 - y)⟩

/-! ### Geometry utilities: the elliptical blend mask (ovalMask,
lines 183-201)

Math.sqrt forces the model into the reals, so these definitions are
noncomputable; every concrete evaluation needed below is carried out by
explicit proof terms.  The buffer write buf[y*w+x] = Math.round(255*t) is
modelled by ovalMask w h f x y giving the value of the byte at column x,
row y. -/

/-- Math.round on a real argument: round half toward positive infinity. -/
noncomputable def jsRoundR (r : ℝ) : ℤ := ⌊r + 1 / 2⌋

/-- Ellipse center abscissa, line 185: cx = w / 2. -/
noncomputable def ovalCx (w : ℕ) : ℝ := (w : ℝ) / 2

/-- Ellipse center ordinate, line 186: cy = h / 2. -/
noncomputable def ovalCy (h : ℕ) : ℝ := (h : ℝ) / 2

/-- Horizontal semi-axis, line 187: rx = (w * 0.85) / 2. -/
noncomputable def ovalRx (w : ℕ) : ℝ := ((w : ℝ) * 0.85) / 2

/-- Vertical semi-axis, line 188: ry = (h * 0.9) / 2. -/
noncomputable def ovalRy (h : ℕ) : ℝ := ((h : ℝ) * 0.9) / 2

/-- Feather threshold, line 189: inner = 1 - featherPx / max(rx, ry). -/
noncomputable def ovalInner (w h f : ℕ) : ℝ :=
  1 - (f : ℝ) / max (ovalRx w) (ovalRy h)

/-- Normalized elliptical distance of a (real) position from the center,
lines 192-194: d = sqrt(dx*dx + dy*dy) with dx = (x-cx)/rx, dy = (y-cy)/ry. -/
noncomputable def ovalD (w h : ℕ) (x y : ℝ) : ℝ :=
  Real.sqrt (((x - ovalCx w) / ovalRx w) * ((x - ovalCx w) / ovalRx w) +
    ((y - ovalCy h) / ovalRy h) * ((y - ovalCy h) / ovalRy h))

/-- The opacity ramp of lines 195-196:
t = d >= 1 ? 0 : d <= inner ? 1 : Math.max(0, (1 - d) / (1 - inner)). -/
noncomputable def ovalRamp (inner d : ℝ) : ℝ :=
  if 1 ≤ d then 0 else if d ≤ inner then 1 else max 0 ((1 - d) / (1 - inner))

/-- Mask opacity at an arbitrary real position. -/
noncomputable def ovalMaskAt (w h f : ℕ) (x y : ℝ) : ℤ :=
  jsRoundR (255 * ovalRamp (ovalInner w h f) (ovalD w h x y))

/-- ovalMask: the byte stored at buf[y*w+x], line 197:
Math.round(255 * t). -/
noncomputable def ovalMask (w h f : ℕ) (x y : ℕ) : ℤ :=
  ovalMaskAt w h f (x : ℝ) (y : ℝ)

/-! ## Theorems -/

/-! ### C2 — Resource Manager caching -/

/-- Claim C2 counterexample: the negative result of a failed load is NOT
cached.  A call that fails to load returns unavailable and leaves the
cache empty, so the very next call attempts the load again (the attempt
flag is true) and, if the load now succeeds, returns a session rather
than the claimed cached unavailable. -/
theorem getRetinaSession_failure_not_cached :
    (getRetinaSession none .failure).1 = none ∧
    (getRetinaSession none .failure).2.1 = none ∧
    (getRetinaSession (getRetinaSession none .failure).2.1 (.success 7)).2.2 = true ∧
    (getRetinaSession (getRetinaSession none .failure).2.1 (.success 7)).1 = some 7 := by
  decide

/-- Claim C2 (amended): a successful load caches the session, and every
call with a cached session returns that same session without attempting a
load; a failed load returns unavailable but caches nothing — the cache is
left empty, so subsequent calls re-attempt the load. -/
theorem getRetinaSession_spec :
    (∀ s load, getRetinaSession (some s) load = (some s, some s, false)) ∧
    (∀ s, getRetinaSession none (.success s) = (some s, some s, true)) ∧
    getRetinaSession none .failure = (none, none, true) :=
  ⟨fun _ _ => rfl, fun _ => rfl, rfl⟩

/-! ### C6 — passthrough when no session -/

/-- Claim C6: when the Resource Manager reports no session,
faceLockComposite returns the generated bytes unchanged (and nothing else
happens: no decode, no detection, no compositing is consulted). -/
theorem faceLock_passthrough_no_session :
    ∀ origMeta genMeta detectOrig detectGen composited generated,
      faceLockComposite none origMeta genMeta detectOrig detectGen
        composited generated = .ok generated :=
  fun _ _ _ _ _ _ => rfl

/-! ### C3 — exceptions on decode failure -/

/-- Claim C3 counterexample: with a session available and original bytes
that fail to decode (sharp metadata rejects), faceLockComposite propagates
the exception to its caller instead of returning the generated bytes. -/
theorem faceLock_decode_failure_throws :
    faceLockComposite (some 0) none (some (100, 100)) none none [] [1, 2, 3]
      = .error "unsupported image format" ∧
    faceLockComposite (some 0) none (some (100, 100)) none none [] [1, 2, 3]
      ≠ .ok [1, 2, 3] := by
  exact ⟨rfl, fun hco => nomatch hco⟩

/-- Claim C3 (amended): when either input fails to decode,
faceLockComposite itself throws (the sharp metadata rejection is not
caught inside it), but the POST call site wraps the call in a try/catch
that falls back to the generated bytes; so no exception escapes the route
handler and the end-to-end result is the generated image unchanged. -/
theorem faceLock_decode_failure_guarded (s : ℕ)
    (origMeta genMeta : Option (ℕ × ℕ)) (detectOrig detectGen : Option FaceBox)
    (composited generated : List ℕ)
    (hfail : origMeta = none ∨ genMeta = none) :
    faceLockComposite (some s) origMeta genMeta detectOrig detectGen
      composited generated = .error "unsupported image format" ∧
    faceLockGuarded (some s) origMeta genMeta detectOrig detectGen
      composited generated = generated := by
  have hcomp : faceLockComposite (some s) origMeta genMeta detectOrig detectGen
      composited generated = .error "unsupported image format" := by
    rcases hfail with hO | hG
    · subst hO; rfl
    · subst hG
      cases origMeta with
      | none => rfl
      | some p => cases p; rfl
  exact ⟨hcomp, by unfold faceLockGuarded; rw [hcomp]⟩

/-- Witness for the amended C3 theorem at a concrete input: generated
bytes [1, 2, 3], undecodable original bytes, decodable 64 by 64 generated
image. -/
theorem faceLock_decode_failure_guarded_witness :
    faceLockComposite (some 1) none (some (64, 64)) none none [] [1, 2, 3]
      = .error "unsupported image format" ∧
    faceLockGuarded (some 1) none (some (64, 64)) none none [] [1, 2, 3]
      = [1, 2, 3] :=
  faceLock_decode_failure_guarded 1 none (some (64, 64)) none none [] [1, 2, 3]
    (Or.inl rfl)

/-! ### C5 — letterbox round trip -/

/-- The letterbox scale is strictly positive for nonempty source and
destination sizes. -/
theorem letterboxScale_pos (srcW srcH dstSize : ℕ)
    (hW : 1 ≤ srcW) (hH : 1 ≤ srcH) (hD : 1 ≤ dstSize) :
    0 < letterboxScale srcW srcH dstSize := by
  have hW0 : (0 : ℚ) < srcW := by exact_mod_cast hW
  have hH0 : (0 : ℚ) < srcH := by exact_mod_cast hH
  have hD0 : (0 : ℚ) < dstSize := by exact_mod_cast hD
  exact lt_min (div_pos hD0 hW0) (div_pos hD0 hH0)

/-- Claim C5: for every source size, destination size and point inside the
source image, the forward letterbox transform followed by the inverse
transform recovers the point within one pixel — in fact exactly, since
scale and padding are used consistently in both directions. -/
theorem letterbox_roundtrip (srcW srcH dstSize : ℕ)
    (hW : 1 ≤ srcW) (hH : 1 ≤ srcH) (hD : 1 ≤ dstSize)
    (x y : ℚ) (hx0 : 0 ≤ x) (hx : x ≤ srcW) (hy0 : 0 ≤ y) (hy : y ≤ srcH) :
    letterboxInvX srcW srcH dstSize (letterboxFwdX srcW srcH dstSize x) = x ∧
    letterboxInvY srcW srcH dstSize (letterboxFwdY srcW srcH dstSize y) = y ∧
    |letterboxInvX srcW srcH dstSize (letterboxFwdX srcW srcH dstSize x) - x| ≤ 1 ∧
    |letterboxInvY srcW srcH dstSize (letterboxFwdY srcW srcH dstSize y) - y| ≤ 1 := by
  have hs : letterboxScale srcW srcH dstSize ≠ 0 :=
    ne_of_gt (letterboxScale_pos srcW srcH dstSize hW hH hD)
  have hX : letterboxInvX srcW srcH dstSize (letterboxFwdX srcW srcH dstSize x) = x := by
    unfold letterboxInvX letterboxFwdX
    rw [add_sub_cancel_right, mul_div_assoc, div_self hs, mul_one]
  have hY : letterboxInvY srcW srcH dstSize (letterboxFwdY srcW srcH dstSize y) = y := by
    unfold letterboxInvY letterboxFwdY
    rw [add_sub_cancel_right, mul_div_assoc, div_self hs, mul_one]
  refine ⟨hX, hY, ?_, ?_⟩
  · rw [hX]; simp
  · rw [hY]; simp

/-- Witness for C5 at a concrete input: an 800 by 1000 source, the 640
detector square, and the point (100, 50). -/
theorem letterbox_roundtrip_witness :
    letterboxInvX 800 1000 640 (letterboxFwdX 800 1000 640 100) = 100 ∧
    letterboxInvY 800 1000 640 (letterboxFwdY 800 1000 640 50) = 50 ∧
    |letterboxInvX 800 1000 640 (letterboxFwdX 800 1000 640 100) - 100| ≤ 1 ∧
    |letterboxInvY 800 1000 640 (letterboxFwdY 800 1000 640 50) - 50| ≤ 1 :=
  letterbox_roundtrip 800 1000 640 (by norm_num) (by norm_num) (by norm_num)
    100 50 (by norm_num) (by norm_num) (by norm_num) (by norm_num)

/-! ### C8 — decoded boxes satisfy the BoundingBox invariant -/

/-- Any box decodeBoxAt yields satisfies the BoundingBox invariant with
the 16-pixel minimum size: nonnegative corner, both dimensions at least
16, and contained in the image. -/
theorem decodeBoxAt_invariant (boxes : List ℚ) (imgW imgH : ℕ) (idx : ℕ)
    (b : FaceBox) (hb : decodeBoxAt boxes imgW imgH idx = some b) :
    0 ≤ b.x ∧ 0 ≤ b.y ∧ 16 ≤ b.w ∧ 16 ≤ b.h ∧
    b.x + b.w ≤ imgW ∧ b.y + b.h ≤ imgH := by
  simp only [decodeBoxAt] at hb
  split at hb
  · exact absurd hb (by simp)
  · rename_i hcond
    push_neg at hcond
    obtain ⟨hw16, hh16⟩ := hcond
    injection hb with hb
    subst hb
    refine ⟨le_max_left 0 _, le_max_left 0 _, hw16, hh16, ?_, ?_⟩
    · have hle := min_le_left ((imgW : ℤ) - max 0 ⌊(boxes.getD (idx * 4) 0 -
        letterboxPadX imgW imgH RETINA_INPUT_SIZE) /
          letterboxScale imgW imgH RETINA_INPUT_SIZE⌋)
        (max 1 ⌈(boxes.getD (idx * 4 + 2) 0 -
          letterboxPadX imgW imgH RETINA_INPUT_SIZE) /
            letterboxScale imgW imgH RETINA_INPUT_SIZE -
          (boxes.getD (idx * 4) 0 - letterboxPadX imgW imgH RETINA_INPUT_SIZE) /
            letterboxScale imgW imgH RETINA_INPUT_SIZE⌉)
      dsimp only
      linarith
    · have hle := min_le_left ((imgH : ℤ) - max 0 ⌊(boxes.getD (idx * 4 + 1) 0 -
        letterboxPadY imgW imgH RETINA_INPUT_SIZE) /
          letterboxScale imgW imgH RETINA_INPUT_SIZE⌋)
        (max 1 ⌈(boxes.getD (idx * 4 + 3) 0 -
          letterboxPadY imgW imgH RETINA_INPUT_SIZE) /
            letterboxScale imgW imgH RETINA_INPUT_SIZE -
          (boxes.getD (idx * 4 + 1) 0 - letterboxPadY imgW imgH RETINA_INPUT_SIZE) /
            letterboxScale imgW imgH RETINA_INPUT_SIZE⌉)
      dsimp only
      linarith

/-- Claim C8: decodeRetinaOutput is a total function (the try/catch of
lines 108 and 146-148 absorbs any error, so it never throws; the model
reflects this by returning an Option with no error case), and whenever it
returns a box rather than null, that box satisfies the BoundingBox
invariant with the minimum usable size: x and y nonnegative, width and
height at least 16, and the box contained within the image bounds. -/
theorem decodeRetinaOutput_invariant (outputs : List OrtTensor)
    (imgW imgH : ℕ) (b : FaceBox)
    (hb : decodeRetinaOutput outputs imgW imgH = some b) :
    0 ≤ b.x ∧ 0 ≤ b.y ∧ 16 ≤ b.w ∧ 16 ≤ b.h ∧
    b.x + b.w ≤ imgW ∧ b.y + b.h ≤ imgH := by
  unfold decodeRetinaOutput at hb
  rcases hp : pickTensors outputs with ⟨bOpt, sOpt⟩
  rw [hp] at hb
  cases bOpt with
  | none => exact Option.noConfusion hb
  | some boxes => exact decodeBoxAt_invariant boxes imgW imgH _ b hb

/-- Letterbox constants for a 640 by 640 image: scale one, no padding. -/
theorem letterbox_640_eval :
    letterboxScale 640 640 RETINA_INPUT_SIZE = 1 ∧
    letterboxPadX 640 640 RETINA_INPUT_SIZE = 0 ∧
    letterboxPadY 640 640 RETINA_INPUT_SIZE = 0 := by
  have hs : letterboxScale 640 640 RETINA_INPUT_SIZE = 1 := by
    norm_num [letterboxScale, RETINA_INPUT_SIZE]
  refine ⟨hs, ?_, ?_⟩
  · rw [letterboxPadX, hs]; norm_num [RETINA_INPUT_SIZE]
  · rw [letterboxPadY, hs]; norm_num [RETINA_INPUT_SIZE]

/-- Evaluation of decodeRetinaOutput on a concrete single-tensor output
map for a 640 by 640 image. -/
theorem decodeRetinaOutput_eval_single :
    decodeRetinaOutput [⟨[1, 1, 4], [50, 50, 600, 600]⟩] 640 640
      = some ⟨50, 50, 550, 550⟩ := by
  obtain ⟨hs, hpx, hpy⟩ := letterbox_640_eval
  have hpick : pickTensors [⟨[1, 1, 4], [50, 50, 600, 600]⟩]
      = (some [50, 50, 600, 600], some [50, 50, 600, 600]) := by
    norm_num [pickTensors]
  have hbest : bestDetection [50, 50, 600, 600] 1 = (0, 50) := by
    norm_num [bestDetection, bestStep, scoreAt, List.range_succ]
  have hbox : decodeBoxAt [50, 50, 600, 600] 640 640 0
      = some ⟨50, 50, 550, 550⟩ := by
    simp only [decodeBoxAt, hs, hpx, hpy]
    norm_num [min_def, max_def]
  unfold decodeRetinaOutput
  rw [hpick]
  norm_num [hbest, hbox]

/-- Witness for C8 at a concrete output map: a single tensor of dims
[1, 1, 4] holding one box in detector coordinates decodes, for a 640 by
640 image, to the box (50, 50, 550, 550), which satisfies the invariant. -/
theorem decodeRetinaOutput_invariant_witness :
    decodeRetinaOutput [⟨[1, 1, 4], [50, 50, 600, 600]⟩] 640 640
      = some ⟨50, 50, 550, 550⟩ ∧
    (0 ≤ (50 : ℤ) ∧ 0 ≤ (50 : ℤ) ∧ 16 ≤ (550 : ℤ) ∧ 16 ≤ (550 : ℤ) ∧
      (50 : ℤ) + 550 ≤ 640 ∧ (50 : ℤ) + 550 ≤ 640) :=
  ⟨decodeRetinaOutput_eval_single,
    decodeRetinaOutput_invariant [⟨[1, 1, 4], [50, 50, 600, 600]⟩]
      640 640 ⟨50, 50, 550, 550⟩ decodeRetinaOutput_eval_single⟩

/-! ### C1 — highest-score selection and the confidence floor -/

/-- Invariant of the selection loop after the first m iterations: the best
score never drops below the 0.5 floor, it bounds every score seen so far,
it is realized at the recorded index whenever some score beat the floor,
and the recorded index is still the default 0 whenever no score did. -/
theorem bestDetection_loop (scores : List ℚ) (nDet : ℕ) (m : ℕ) :
    1 / 2 ≤ ((List.range m).foldl (bestStep scores nDet) (0, 1 / 2)).2 ∧
    (∀ j, j < m →
      scoreAt scores nDet j ≤ ((List.range m).foldl (bestStep scores nDet) (0, 1 / 2)).2) ∧
    (1 / 2 < ((List.range m).foldl (bestStep scores nDet) (0, 1 / 2)).2 →
      ((List.range m).foldl (bestStep scores nDet) (0, 1 / 2)).1 < m ∧
      scoreAt scores nDet ((List.range m).foldl (bestStep scores nDet) (0, 1 / 2)).1
        = ((List.range m).foldl (bestStep scores nDet) (0, 1 / 2)).2) ∧
    (((List.range m).foldl (bestStep scores nDet) (0, 1 / 2)).2 = 1 / 2 →
      ((List.range m).foldl (bestStep scores nDet) (0, 1 / 2)).1 = 0) := by
  induction m with
  | zero =>
    refine ⟨le_refl _, fun j hj => absurd hj (Nat.not_lt_zero j), ?_, fun _ => rfl⟩
    intro hlt
    exact absurd hlt (lt_irrefl _)
  | succ m ih =>
    obtain ⟨ih1, ih2, ih3, ih4⟩ := ih
    rw [List.range_succ, List.foldl_append, List.foldl_cons, List.foldl_nil]
    unfold bestStep
    split
    case isTrue hlt =>
      dsimp only
      refine ⟨le_of_lt (lt_of_le_of_lt ih1 hlt), ?_, ?_, ?_⟩
      · intro j hj
        rcases Nat.lt_succ_iff_lt_or_eq.mp hj with hj2 | hj2
        · exact le_of_lt (lt_of_le_of_lt (ih2 j hj2) hlt)
        · subst hj2; exact le_refl _
      · intro _
        exact ⟨Nat.lt_succ_self m, rfl⟩
      · intro heq
        exfalso
        have hgt : 1 / 2 < scoreAt scores nDet m := lt_of_le_of_lt ih1 hlt
        rw [heq] at hgt
        exact lt_irrefl _ hgt
    case isFalse hge =>
      refine ⟨ih1, ?_, ?_, ih4⟩
      · intro j hj
        rcases Nat.lt_succ_iff_lt_or_eq.mp hj with hj2 | hj2
        · exact ih2 j hj2
        · subst hj2; exact not_lt.mp hge
      · intro hgt
        obtain ⟨hlt2, heq2⟩ := ih3 hgt
        exact ⟨Nat.lt_succ_of_lt hlt2, heq2⟩

/-- Claim C1 counterexample: an output map holding a boxes tensor and a
separate score tensor whose only score is 0.1, below the 0.5 floor.  The
claim says decodeRetinaOutput must return null; instead the selection
falls back to detection 0 and a box is returned. -/
theorem decodeRetina_below_floor_counterexample :
    pickTensors [⟨[1, 1, 4], [100, 100, 500, 500]⟩, ⟨[1, 1], [1 / 10]⟩]
      = (some [100, 100, 500, 500], some [1 / 10]) ∧
    (1 / 10 : ℚ) < 1 / 2 ∧
    decodeRetinaOutput [⟨[1, 1, 4], [100, 100, 500, 500]⟩, ⟨[1, 1], [1 / 10]⟩]
      640 640 = some ⟨100, 100, 400, 400⟩ := by
  obtain ⟨hs, hpx, hpy⟩ := letterbox_640_eval
  have hpick : pickTensors [⟨[1, 1, 4], [100, 100, 500, 500]⟩, ⟨[1, 1], [1 / 10]⟩]
      = (some [100, 100, 500, 500], some [1 / 10]) := by
    norm_num [pickTensors]
  have hbest : bestDetection [1 / 10] 1 = (0, 1 / 2) := by
    norm_num [bestDetection, bestStep, scoreAt, List.range_succ]
  have hbox : decodeBoxAt [100, 100, 500, 500] 640 640 0
      = some ⟨100, 100, 400, 400⟩ := by
    simp only [decodeBoxAt, hs, hpx, hpy]
    norm_num [min_def, max_def]
  refine ⟨hpick, by norm_num, ?_⟩
  unfold decodeRetinaOutput
  rw [hpick]
  norm_num [hbest, hbox]

/-- Claim C1 (amended): the selection loop picks the detection with the
highest confidence score, with the 0.5 floor applied only to the
selection: a detection wins only if its score strictly exceeds 0.5, and
its index and score are then recorded; but when no score exceeds the
floor, the loop keeps the default index 0 and decodeRetinaOutput still
decodes detection 0 — possibly returning its box — rather than returning
null. -/
theorem decodeRetina_selection_spec :
    (∀ scores nDet,
      1 / 2 ≤ (bestDetection scores nDet).2 ∧
      (∀ j, j < nDet → scoreAt scores nDet j ≤ (bestDetection scores nDet).2) ∧
      (1 / 2 < (bestDetection scores nDet).2 →
        (bestDetection scores nDet).1 < nDet ∧
        scoreAt scores nDet (bestDetection scores nDet).1
          = (bestDetection scores nDet).2) ∧
      ((bestDetection scores nDet).2 = 1 / 2 → (bestDetection scores nDet).1 = 0)) ∧
    (∀ outputs imgW imgH boxes scores,
      pickTensors outputs = (some boxes, some scores) →
      boxes.length / 4 ≤ scores.length →
      (∀ j, j < boxes.length / 4 →
        scoreAt scores (boxes.length / 4) j ≤ 1 / 2) →
      decodeRetinaOutput outputs imgW imgH = decodeBoxAt boxes imgW imgH 0) := by
  constructor
  · intro scores nDet
    exact bestDetection_loop scores nDet nDet
  · intro outputs imgW imgH boxes scores hpick hlen hall
    obtain ⟨h1, _, h3, h4⟩ := bestDetection_loop scores (boxes.length / 4)
      (boxes.length / 4)
    have hfold : bestDetection scores (boxes.length / 4)
        = (List.range (boxes.length / 4)).foldl
            (bestStep scores (boxes.length / 4)) (0, 1 / 2) := rfl
    rw [← hfold] at h1 h3 h4
    have hbest2 : (bestDetection scores (boxes.length / 4)).2 = 1 / 2 := by
      rcases lt_or_eq_of_le h1 with hlt | heq
      · exfalso
        obtain ⟨hidx, hsc⟩ := h3 hlt
        have := hall _ hidx
        rw [hsc] at this
        exact absurd hlt (not_lt.mpr this)
      · exact heq.symm
    have hbest1 : (bestDetection scores (boxes.length / 4)).1 = 0 := h4 hbest2
    unfold decodeRetinaOutput
    rw [hpick]
    dsimp only
    rw [if_pos hlen, hbest1]

/-- Witness for the amended C1 theorem: an output map whose score tensor
holds the single score 0.4 (below the floor), for which decodeRetinaOutput
decodes detection 0. -/
theorem decodeRetina_selection_spec_witness :
    decodeRetinaOutput [⟨[1, 1, 4], [10, 10, 400, 400]⟩, ⟨[1, 1], [2 / 5]⟩]
      640 640 = decodeBoxAt [10, 10, 400, 400] 640 640 0 :=
  decodeRetina_selection_spec.2
    [⟨[1, 1, 4], [10, 10, 400, 400]⟩, ⟨[1, 1], [2 / 5]⟩] 640 640
    [10, 10, 400, 400] [2 / 5]
    (by norm_num [pickTensors])
    (by norm_num)
    (by
      intro j hj
      norm_num at hj
      subst hj
      norm_num [scoreAt])

/-! ### C9 — box expansion -/

/-- Claim C9: for any box satisfying the BoundingBox invariant, expandBox
returns a box that satisfies the invariant, contains the input box, and
whose edges are exactly the input edges moved outward by 15 percent of the
width/height (floor/ceil-rounded) and clamped to the image bounds. -/
theorem expandBox_spec (box : FaceBox) (imgW imgH : ℕ)
    (hx : 0 ≤ box.x) (hy : 0 ≤ box.y) (hw : 1 ≤ box.w) (hh : 1 ≤ box.h)
    (hxw : box.x + box.w ≤ (imgW : ℤ)) (hyh : box.y + box.h ≤ (imgH : ℤ)) :
    (0 ≤ (expandBox box imgW imgH).x ∧ 0 ≤ (expandBox box imgW imgH).y ∧
      1 ≤ (expandBox box imgW imgH).w ∧ 1 ≤ (expandBox box imgW imgH).h ∧
      (expandBox box imgW imgH).x + (expandBox box imgW imgH).w ≤ imgW ∧
      (expandBox box imgW imgH).y + (expandBox box imgW imgH).h ≤ imgH) ∧
    ((expandBox box imgW imgH).x ≤ box.x ∧
      (expandBox box imgW imgH).y ≤ box.y ∧
      box.x + box.w ≤ (expandBox box imgW imgH).x + (expandBox box imgW imgH).w ∧
      box.y + box.h ≤ (expandBox box imgW imgH).y + (expandBox box imgW imgH).h) ∧
    ((expandBox box imgW imgH).x = max 0 ⌊(box.x : ℚ) - box.w * (15 / 100)⌋ ∧
      (expandBox box imgW imgH).y = max 0 ⌊(box.y : ℚ) - box.h * (15 / 100)⌋ ∧
      (expandBox box imgW imgH).x + (expandBox box imgW imgH).w
        = min (imgW : ℤ) ⌈(box.x : ℚ) + box.w + box.w * (15 / 100)⌉ ∧
      (expandBox box imgW imgH).y + (expandBox box imgW imgH).h
        = min (imgH : ℤ) ⌈(box.y : ℚ) + box.h + box.h * (15 / 100)⌉) := by
  have hdw : (0 : ℚ) ≤ (box.w : ℚ) * (15 / 100) := by
    have : (0 : ℚ) ≤ (box.w : ℚ) := by exact_mod_cast le_trans zero_le_one hw
    positivity
  have hdh : (0 : ℚ) ≤ (box.h : ℚ) * (15 / 100) := by
    have : (0 : ℚ) ≤ (box.h : ℚ) := by exact_mod_cast le_trans zero_le_one hh
    positivity
  have hexp : expandBox box imgW imgH =
      ⟨max 0 ⌊(box.x : ℚ) - box.w * (15 / 100)⌋,
        max 0 ⌊(box.y : ℚ) - box.h * (15 / 100)⌋,
        max 1 (min (imgW : ℤ) ⌈(box.x : ℚ) + box.w + box.w * (15 / 100)⌉ -
          max 0 ⌊(box.x : ℚ) - box.w * (15 / 100)⌋),
        max 1 (min (imgH : ℤ) ⌈(box.y : ℚ) + box.h + box.h * (15 / 100)⌉ -
          max 0 ⌊(box.y : ℚ) - box.h * (15 / 100)⌋)⟩ := rfl
  have hXle : max 0 ⌊(box.x : ℚ) - box.w * (15 / 100)⌋ ≤ box.x := by
    refine max_le hx ?_
    calc ⌊(box.x : ℚ) - box.w * (15 / 100)⌋
        ≤ ⌊((box.x : ℤ) : ℚ)⌋ := Int.floor_le_floor (by linarith)
      _ = box.x := Int.floor_intCast box.x
  have hYle : max 0 ⌊(box.y : ℚ) - box.h * (15 / 100)⌋ ≤ box.y := by
    refine max_le hy ?_
    calc ⌊(box.y : ℚ) - box.h * (15 / 100)⌋
        ≤ ⌊((box.y : ℤ) : ℚ)⌋ := Int.floor_le_floor (by linarith)
      _ = box.y := Int.floor_intCast box.y
  have hX2ge : box.x + box.w ≤
      min (imgW : ℤ) ⌈(box.x : ℚ) + box.w + box.w * (15 / 100)⌉ := by
    refine le_min hxw ?_
    calc box.x + box.w = ⌈((box.x + box.w : ℤ) : ℚ)⌉ := (Int.ceil_intCast _).symm
      _ ≤ ⌈(box.x : ℚ) + box.w + box.w * (15 / 100)⌉ := by
          refine Int.ceil_le_ceil ?_
          push_cast
          linarith
  have hY2ge : box.y + box.h ≤
      min (imgH : ℤ) ⌈(box.y : ℚ) + box.h + box.h * (15 / 100)⌉ := by
    refine le_min hyh ?_
    calc box.y + box.h = ⌈((box.y + box.h : ℤ) : ℚ)⌉ := (Int.ceil_intCast _).symm
      _ ≤ ⌈(box.y : ℚ) + box.h + box.h * (15 / 100)⌉ := by
          refine Int.ceil_le_ceil ?_
          push_cast
          linarith
  have hW : max 1 (min (imgW : ℤ) ⌈(box.x : ℚ) + box.w + box.w * (15 / 100)⌉ -
      max 0 ⌊(box.x : ℚ) - box.w * (15 / 100)⌋)
      = min (imgW : ℤ) ⌈(box.x : ℚ) + box.w + box.w * (15 / 100)⌉ -
        max 0 ⌊(box.x : ℚ) - box.w * (15 / 100)⌋ :=
    max_eq_right (by linarith)
  have hH : max 1 (min (imgH : ℤ) ⌈(box.y : ℚ) + box.h + box.h * (15 / 100)⌉ -
      max 0 ⌊(box.y : ℚ) - box.h * (15 / 100)⌋)
      = min (imgH : ℤ) ⌈(box.y : ℚ) + box.h + box.h * (15 / 100)⌉ -
        max 0 ⌊(box.y : ℚ) - box.h * (15 / 100)⌋ :=
    max_eq_right (by linarith)
  rw [hexp]
  dsimp only
  rw [hW, hH]
  have hminW : min (imgW : ℤ) ⌈(box.x : ℚ) + box.w + box.w * (15 / 100)⌉
      ≤ (imgW : ℤ) := min_le_left _ _
  have hminH : min (imgH : ℤ) ⌈(box.y : ℚ) + box.h + box.h * (15 / 100)⌉
      ≤ (imgH : ℤ) := min_le_left _ _
  refine ⟨⟨le_max_left 0 _, le_max_left 0 _, by linarith, by linarith,
    by linarith, by linarith⟩,
    ⟨hXle, hYle, by linarith, by linarith⟩,
    rfl, rfl, by ring, by ring⟩

/-- Witness for C9 at the concrete box (100, 50, 200, 250) inside an 800
by 1000 image. -/
theorem expandBox_spec_witness :
    (0 ≤ (expandBox ⟨100, 50, 200, 250⟩ 800 1000).x ∧
      0 ≤ (expandBox ⟨100, 50, 200, 250⟩ 800 1000).y ∧
      1 ≤ (expandBox ⟨100, 50, 200, 250⟩ 800 1000).w ∧
      1 ≤ (expandBox ⟨100, 50, 200, 250⟩ 800 1000).h ∧
      (expandBox ⟨100, 50, 200, 250⟩ 800 1000).x +
        (expandBox ⟨100, 50, 200, 250⟩ 800 1000).w ≤ 800 ∧
      (expandBox ⟨100, 50, 200, 250⟩ 800 1000).y +
        (expandBox ⟨100, 50, 200, 250⟩ 800 1000).h ≤ 1000) ∧
    ((expandBox ⟨100, 50, 200, 250⟩ 800 1000).x ≤ 100 ∧
      (expandBox ⟨100, 50, 200, 250⟩ 800 1000).y ≤ 50 ∧
      (100 : ℤ) + 200 ≤ (expandBox ⟨100, 50, 200, 250⟩ 800 1000).x +
        (expandBox ⟨100, 50, 200, 250⟩ 800 1000).w ∧
      (50 : ℤ) + 250 ≤ (expandBox ⟨100, 50, 200, 250⟩ 800 1000).y +
        (expandBox ⟨100, 50, 200, 250⟩ 800 1000).h) := by
  have hspec := expandBox_spec ⟨100, 50, 200, 250⟩ 800 1000
    (by norm_num) (by norm_num) (by norm_num) (by norm_num)
    (by norm_num) (by norm_num)
  exact ⟨hspec.1, hspec.2.1⟩

/-! ### C7 — detector input tensor shape and channel layout -/

/-- Claim C7: the prepared detector input is a batch-1, 3-channel, 640 by
640 float tensor whose channels are ordered B, G, R with the fixed means
subtracted: the entry of channel 0 at destination pixel (x, y) is the
sampled pixel's blue byte (offset 2 of its RGBA quad) minus 104, channel 1
is green (offset 1) minus 117, channel 2 is red (offset 0) minus 123. -/
theorem prepareRetinaInput_channels (rgba : ℕ → ℕ) (w h : ℕ) :
    retinaTensorDims = [1, 3, 640, 640] ∧
    prepareRetinaLength = 3 * 640 * 640 ∧
    (∀ x y, x < 640 → y < 640 →
      prepareRetinaInput rgba w h (0 * (640 * 640) + y * 640 + x)
        = (rgba (retinaPixIndex w h x y + 2) : ℤ) - 104 ∧
      prepareRetinaInput rgba w h (1 * (640 * 640) + y * 640 + x)
        = (rgba (retinaPixIndex w h x y + 1) : ℤ) - 117 ∧
      prepareRetinaInput rgba w h (2 * (640 * 640) + y * 640 + x)
        = (rgba (retinaPixIndex w h x y) : ℤ) - 123) := by
  refine ⟨rfl, rfl, ?_⟩
  intro x y hx hy
  refine ⟨?_, ?_, ?_⟩
  · simp only [prepareRetinaInput, RETINA_INPUT_SIZE]
    rw [show (0 * (640 * 640) + y * 640 + x) / (640 * 640) = 0 from by omega,
      show (0 * (640 * 640) + y * 640 + x) % (640 * 640) / 640 = y from by omega,
      show (0 * (640 * 640) + y * 640 + x) % 640 = x from by omega]
    simp
  · simp only [prepareRetinaInput, RETINA_INPUT_SIZE]
    rw [show (1 * (640 * 640) + y * 640 + x) / (640 * 640) = 1 from by omega,
      show (1 * (640 * 640) + y * 640 + x) % (640 * 640) / 640 = y from by omega,
      show (1 * (640 * 640) + y * 640 + x) % 640 = x from by omega]
    simp
  · simp only [prepareRetinaInput, RETINA_INPUT_SIZE]
    rw [show (2 * (640 * 640) + y * 640 + x) / (640 * 640) = 2 from by omega,
      show (2 * (640 * 640) + y * 640 + x) % (640 * 640) / 640 = y from by omega,
      show (2 * (640 * 640) + y * 640 + x) % 640 = x from by omega]
    simp

/-- Witness for C7 at a concrete buffer (every byte 7) and the 1 by 1
image: the three channel entries of destination pixel (0, 0) are 7 minus
the three means. -/
theorem prepareRetinaInput_channels_witness :
    prepareRetinaInput (fun _ => 7) 1 1 (0 * (640 * 640) + 0 * 640 + 0) = 7 - 104 ∧
    prepareRetinaInput (fun _ => 7) 1 1 (1 * (640 * 640) + 0 * 640 + 0) = 7 - 117 ∧
    prepareRetinaInput (fun _ => 7) 1 1 (2 * (640 * 640) + 0 * 640 + 0) = 7 - 123 :=
  (prepareRetinaInput_channels (fun _ => 7) 1 1).2.2 0 0 (by norm_num) (by norm_num)

/-! ### C10 — preparation is total and memory safe -/

/-- Claim C10: for any image dimensions of at least one pixel and any byte
buffer, every sampled source coordinate is clamped into the valid range,
so the RGBA read of each sampled quad stays strictly within the 4*w*h
bytes of the buffer; the output array has exactly 1*3*640*640 = 3*640*640
entries; and every entry lies in the interval [-123, 151]. -/
theorem prepareRetinaInput_safe (rgba : ℕ → ℕ) (w h : ℕ)
    (hw : 1 ≤ w) (hh : 1 ≤ h) (hbytes : ∀ i, rgba i ≤ 255) :
    (∀ x, 0 ≤ retinaSx w h x ∧ retinaSx w h x < w) ∧
    (∀ y, 0 ≤ retinaSy w h y ∧ retinaSy w h y < h) ∧
    (∀ x y, retinaPixIndex w h x y + 3 < 4 * (w * h)) ∧
    prepareRetinaLength = 3 * 640 * 640 ∧
    (∀ idx, -123 ≤ prepareRetinaInput rgba w h idx ∧
      prepareRetinaInput rgba w h idx ≤ 151) := by
  have hsx : ∀ x, 0 ≤ retinaSx w h x ∧ retinaSx w h x < w := by
    intro x
    unfold retinaSx
    constructor
    · exact le_min (by omega) (le_max_left 0 _)
    · calc min ((w : ℤ) - 1) (max 0 ⌊((x : ℚ) - retinaPadLeft w h) /
          letterboxScale w h RETINA_INPUT_SIZE⌋) ≤ (w : ℤ) - 1 := min_le_left _ _
        _ < w := by omega
  have hsy : ∀ y, 0 ≤ retinaSy w h y ∧ retinaSy w h y < h := by
    intro y
    unfold retinaSy
    constructor
    · exact le_min (by omega) (le_max_left 0 _)
    · calc min ((h : ℤ) - 1) (max 0 ⌊((y : ℚ) - retinaPadTop w h) /
          letterboxScale w h RETINA_INPUT_SIZE⌋) ≤ (h : ℤ) - 1 := min_le_left _ _
        _ < h := by omega
  have hpix : ∀ x y, retinaPixIndex w h x y + 3 < 4 * (w * h) := by
    intro x y
    obtain ⟨hsx0, hsxw⟩ := hsx x
    obtain ⟨hsy0, hsyh⟩ := hsy y
    have hwz : (0 : ℤ) ≤ (w : ℤ) := by omega
    have h2 : retinaSy w h y * w ≤ ((h : ℤ) - 1) * w :=
      mul_le_mul_of_nonneg_right (by omega) hwz
    have h1 : retinaSy w h y * w + retinaSx w h x ≤ ((w * h : ℕ) : ℤ) - 1 := by
      push_cast
      nlinarith
    have h0 : 0 ≤ retinaSy w h y * w + retinaSx w h x :=
      add_nonneg (mul_nonneg hsy0 hwz) hsx0
    unfold retinaPixIndex
    omega
  refine ⟨hsx, hsy, hpix, rfl, ?_⟩
  intro idx
  have hb0 := hbytes (retinaPixIndex w h (idx % RETINA_INPUT_SIZE)
    (idx % (RETINA_INPUT_SIZE * RETINA_INPUT_SIZE) / RETINA_INPUT_SIZE) + 2)
  have hb1 := hbytes (retinaPixIndex w h (idx % RETINA_INPUT_SIZE)
    (idx % (RETINA_INPUT_SIZE * RETINA_INPUT_SIZE) / RETINA_INPUT_SIZE) + 1)
  have hb2 := hbytes (retinaPixIndex w h (idx % RETINA_INPUT_SIZE)
    (idx % (RETINA_INPUT_SIZE * RETINA_INPUT_SIZE) / RETINA_INPUT_SIZE))
  simp only [prepareRetinaInput]
  split
  · omega
  · split
    · omega
    · omega

/-- Witness for C10 at the all-zero 1 by 1 buffer. -/
theorem prepareRetinaInput_safe_witness :
    (∀ x, 0 ≤ retinaSx 1 1 x ∧ retinaSx 1 1 x < 1) ∧
    (∀ y, 0 ≤ retinaSy 1 1 y ∧ retinaSy 1 1 y < 1) ∧
    (∀ x y, retinaPixIndex 1 1 x y + 3 < 4 * (1 * 1)) ∧
    prepareRetinaLength = 3 * 640 * 640 ∧
    (∀ idx, -123 ≤ prepareRetinaInput (fun _ => 0) 1 1 idx ∧
      prepareRetinaInput (fun _ => 0) 1 1 idx ≤ 151) :=
  prepareRetinaInput_safe (fun _ => 0) 1 1 (by norm_num) (by norm_num)
    (fun _ => by norm_num)

/-! ### C4 — shape of the oval mask -/

/-- The horizontal semi-axis is positive for a nonempty mask. -/
theorem ovalRx_pos (w : ℕ) (hw : 1 ≤ w) : 0 < ovalRx w := by
  unfold ovalRx
  have h0 : (0 : ℝ) < w := by exact_mod_cast hw
  exact div_pos (mul_pos h0 (by norm_num)) (by norm_num)

/-- The vertical semi-axis is positive for a nonempty mask. -/
theorem ovalRy_pos (h : ℕ) (hh : 1 ≤ h) : 0 < ovalRy h := by
  unfold ovalRy
  have h0 : (0 : ℝ) < h := by exact_mod_cast hh
  exact div_pos (mul_pos h0 (by norm_num)) (by norm_num)

/-- The opacity ramp never goes below 0. -/
theorem ovalRamp_nonneg (inner d : ℝ) : 0 ≤ ovalRamp inner d := by
  unfold ovalRamp
  split
  · exact le_refl 0
  · split
    · exact zero_le_one
    · exact le_max_left 0 _

/-- The opacity ramp never exceeds 1. -/
theorem ovalRamp_le_one (inner d : ℝ) : ovalRamp inner d ≤ 1 := by
  unfold ovalRamp
  split
  · exact zero_le_one
  · split
    · exact le_refl 1
    · rename_i hd1 hdi
      push_neg at hd1 hdi
      refine max_le zero_le_one ?_
      rw [div_le_one (by linarith)]
      linarith

/-- The opacity ramp is non-increasing in the normalized distance. -/
theorem ovalRamp_antitone (inner : ℝ) {d1 d2 : ℝ} (h : d1 ≤ d2) :
    ovalRamp inner d2 ≤ ovalRamp inner d1 := by
  rcases le_or_lt 1 d2 with h2 | h2
  · rw [show ovalRamp inner d2 = 0 from by rw [ovalRamp, if_pos h2]]
    exact ovalRamp_nonneg inner d1
  · have h1 : d1 < 1 := lt_of_le_of_lt h h2
    rcases le_or_lt d1 inner with hi1 | hi1
    · rw [show ovalRamp inner d1 = 1 from by
        rw [ovalRamp, if_neg (not_le.mpr h1), if_pos hi1]]
      exact ovalRamp_le_one inner d2
    · rw [show ovalRamp inner d1 = max 0 ((1 - d1) / (1 - inner)) from by
        rw [ovalRamp, if_neg (not_le.mpr h1), if_neg (not_le.mpr hi1)],
        show ovalRamp inner d2 = max 0 ((1 - d2) / (1 - inner)) from by
        rw [ovalRamp, if_neg (not_le.mpr h2),
          if_neg (not_le.mpr (lt_of_lt_of_le hi1 h))]]
      refine max_le_max (le_refl 0) ?_
      exact (div_le_div_right (by linarith)).mpr (by linarith)

/-- The normalized distance is nonnegative. -/
theorem ovalD_nonneg (w h : ℕ) (x y : ℝ) : 0 ≤ ovalD w h x y :=
  Real.sqrt_nonneg _

/-- Along a ray leaving the mask center, the normalized distance grows
linearly with the ray parameter. -/
theorem ovalD_ray (w h : ℕ) (a b s : ℝ) (hs : 0 ≤ s) :
    ovalD w h (ovalCx w + s * (a - ovalCx w)) (ovalCy h + s * (b - ovalCy h))
      = s * ovalD w h a b := by
  unfold ovalD
  have e : ((ovalCx w + s * (a - ovalCx w) - ovalCx w) / ovalRx w) *
        ((ovalCx w + s * (a - ovalCx w) - ovalCx w) / ovalRx w) +
      ((ovalCy h + s * (b - ovalCy h) - ovalCy h) / ovalRy h) *
        ((ovalCy h + s * (b - ovalCy h) - ovalCy h) / ovalRy h)
      = s ^ 2 * (((a - ovalCx w) / ovalRx w) * ((a - ovalCx w) / ovalRx w) +
        ((b - ovalCy h) / ovalRy h) * ((b - ovalCy h) / ovalRy h)) := by
    ring
  rw [e, Real.sqrt_mul (sq_nonneg s), Real.sqrt_sq hs]

/-- When the normalized distance reaches 1, the stored mask byte is 0. -/
theorem ovalMaskAt_of_one_le (w h f : ℕ) (x y : ℝ)
    (hd : 1 ≤ ovalD w h x y) : ovalMaskAt w h f x y = 0 := by
  unfold ovalMaskAt jsRoundR
  rw [show ovalRamp (ovalInner w h f) (ovalD w h x y) = 0 from by
    rw [ovalRamp, if_pos hd]]
  rw [mul_zero, zero_add, Int.floor_eq_zero_iff]
  constructor <;> norm_num

/-- In the top pixel row the vertical offset alone reaches 10/9 of the
vertical semi-axis, so the normalized distance is at least 1. -/
theorem ovalD_row_zero (w h : ℕ) (hh : 1 ≤ h) (x : ℝ) :
    1 ≤ ovalD w h x 0 := by
  have hne : ovalRy h ≠ 0 := ne_of_gt (ovalRy_pos h hh)
  have hdy : ((0 : ℝ) - ovalCy h) / ovalRy h = -(10 / 9) := by
    unfold ovalCy ovalRy at *
    rw [div_eq_iff hne]
    ring
  unfold ovalD
  refine Real.le_sqrt_of_sq_le ?_
  rw [hdy]
  have hdx := mul_self_nonneg ((x - ovalCx w) / ovalRx w)
  nlinarith

/-- In the leftmost pixel column the horizontal offset alone reaches
20/17 of the horizontal semi-axis, so the normalized distance is at
least 1. -/
theorem ovalD_col_zero (w h : ℕ) (hw : 1 ≤ w) (y : ℝ) :
    1 ≤ ovalD w h 0 y := by
  have hne : ovalRx w ≠ 0 := ne_of_gt (ovalRx_pos w hw)
  have hdx : ((0 : ℝ) - ovalCx w) / ovalRx w = -(20 / 17) := by
    unfold ovalCx ovalRx at *
    rw [div_eq_iff hne]
    ring
  unfold ovalD
  refine Real.le_sqrt_of_sq_le ?_
  rw [hdx]
  have hdy := mul_self_nonneg ((y - ovalCy h) / ovalRy h)
  nlinarith

/-- From width 14 on, the bottom-right pixel's horizontal offset alone
reaches the horizontal semi-axis, so its normalized distance is at
least 1. -/
theorem ovalD_bottom_right (w h : ℕ) (hw : 14 ≤ w) (y : ℝ) :
    1 ≤ ovalD w h ((w : ℝ) - 1) y := by
  have hw0 : (14 : ℝ) ≤ (w : ℝ) := by exact_mod_cast hw
  have hrx : 0 < ovalRx w := ovalRx_pos w (by omega)
  have hdx1 : 1 ≤ ((w : ℝ) - 1 - ovalCx w) / ovalRx w := by
    rw [le_div_iff hrx]
    unfold ovalRx ovalCx
    nlinarith
  unfold ovalD
  refine Real.le_sqrt_of_sq_le ?_
  have hsq : 1 * 1 ≤ (((w : ℝ) - 1 - ovalCx w) / ovalRx w) *
      (((w : ℝ) - 1 - ovalCx w) / ovalRx w) :=
    mul_le_mul hdx1 hdx1 zero_le_one (le_trans zero_le_one hdx1)
  have hdy := mul_self_nonneg ((y - ovalCy h) / ovalRy h)
  nlinarith

/-- Claim C4 counterexample: for the 1 by 1 mask with no feather, the
only pixel (0, 0) is both a corner and the exact center pixel; the claim
demands value 255 there, but the code stores 0 (the mask is centered at
(w/2, h/2), which for a 1 by 1 buffer lies half a pixel away from the
pixel at the origin, at normalized distance above 1). -/
theorem ovalMask_center_claim_false :
    ovalMask 1 1 0 0 0 = 0 ∧ ovalMask 1 1 0 0 0 ≠ 255 := by
  have h0 : ovalMask 1 1 0 0 0 = 0 := by
    unfold ovalMask
    push_cast
    exact ovalMaskAt_of_one_le 1 1 0 0 0 (ovalD_row_zero 1 1 le_rfl 0)
  exact ⟨h0, by rw [h0]; norm_num⟩

/-- When the image has even dimensions, a pixel sits at the exact mask
center; if the feather band does not exceed the larger semi-axis, the
stored byte there is 255. -/
theorem ovalMask_center (w h f : ℕ) (hw : 1 ≤ w) (hh : 1 ≤ h)
    (hwe : w % 2 = 0) (hhe : h % 2 = 0)
    (hf : (f : ℝ) ≤ max (ovalRx w) (ovalRy h)) :
    ovalMask w h f (w / 2) (h / 2) = 255 := by
  have hcx : ((w / 2 : ℕ) : ℝ) = ovalCx w := by
    obtain ⟨k, hk⟩ := Nat.even_iff.mpr hwe
    subst hk
    rw [show (k + k) / 2 = k from by omega]
    unfold ovalCx
    push_cast
    ring
  have hcy : ((h / 2 : ℕ) : ℝ) = ovalCy h := by
    obtain ⟨k, hk⟩ := Nat.even_iff.mpr hhe
    subst hk
    rw [show (k + k) / 2 = k from by omega]
    unfold ovalCy
    push_cast
    ring
  unfold ovalMask
  rw [hcx, hcy]
  have hd : ovalD w h (ovalCx w) (ovalCy h) = 0 := by
    unfold ovalD
    rw [sub_self, sub_self]
    norm_num
  unfold ovalMaskAt
  rw [hd]
  have hM : 0 < max (ovalRx w) (ovalRy h) := lt_max_of_lt_left (ovalRx_pos w hw)
  have hinner : 0 ≤ ovalInner w h f := by
    unfold ovalInner
    rw [sub_nonneg, div_le_one hM]
    exact hf
  rw [show ovalRamp (ovalInner w h f) 0 = 1 from by
    rw [ovalRamp, if_neg (by norm_num), if_pos hinner]]
  unfold jsRoundR
  rw [mul_one, Int.floor_eq_iff]
  constructor <;> norm_num

/-- Claim C4 (amended): the three corner pixels adjacent to the top row
or the left column always store 0; the bottom-right corner stores 0 once
the width is at least 14 (the mask is centered at (w/2, h/2), half a
pixel below-right of the pixel-grid center, so for small sizes that
corner can fall inside the ellipse); the exact center pixel stores 255
provided a pixel lies at the exact center (even width and height) and the
feather does not exceed the larger semi-axis; and along every ray leaving
the mask center — in particular toward each corner — the mask is
monotonically non-increasing. -/
theorem ovalMask_shape (w h f : ℕ) (hw : 1 ≤ w) (hh : 1 ≤ h) :
    ovalMask w h f 0 0 = 0 ∧
    ovalMask w h f (w - 1) 0 = 0 ∧
    ovalMask w h f 0 (h - 1) = 0 ∧
    (14 ≤ w → ovalMask w h f (w - 1) (h - 1) = 0) ∧
    (w % 2 = 0 → h % 2 = 0 → (f : ℝ) ≤ max (ovalRx w) (ovalRy h) →
      ovalMask w h f (w / 2) (h / 2) = 255) ∧
    (∀ a b s1 s2 : ℝ, 0 ≤ s1 → s1 ≤ s2 →
      ovalMaskAt w h f (ovalCx w + s2 * (a - ovalCx w))
          (ovalCy h + s2 * (b - ovalCy h))
        ≤ ovalMaskAt w h f (ovalCx w + s1 * (a - ovalCx w))
          (ovalCy h + s1 * (b - ovalCy h))) := by
  refine ⟨?_, ?_, ?_, ?_, ?_, ?_⟩
  · unfold ovalMask
    push_cast
    exact ovalMaskAt_of_one_le w h f 0 0 (ovalD_row_zero w h hh 0)
  · unfold ovalMask
    simp only [Nat.cast_zero]
    exact ovalMaskAt_of_one_le w h f _ 0 (ovalD_row_zero w h hh _)
  · unfold ovalMask
    simp only [Nat.cast_zero]
    exact ovalMaskAt_of_one_le w h f 0 _ (ovalD_col_zero w h hw _)
  · intro hw14
    unfold ovalMask
    rw [Nat.cast_sub (by omega : 1 ≤ w)]
    simp only [Nat.cast_one]
    exact ovalMaskAt_of_one_le w h f _ _ (ovalD_bottom_right w h hw14 _)
  · intro hwe hhe hf
    exact ovalMask_center w h f hw hh hwe hhe hf
  · intro a b s1 s2 hs1 h12
    have hd1 := ovalD_ray w h a b s1 hs1
    have hd2 := ovalD_ray w h a b s2 (le_trans hs1 h12)
    unfold ovalMaskAt jsRoundR
    rw [hd1, hd2]
    apply Int.floor_le_floor
    have hmono : ovalRamp (ovalInner w h f) (s2 * ovalD w h a b)
        ≤ ovalRamp (ovalInner w h f) (s1 * ovalD w h a b) :=
      ovalRamp_antitone _ (mul_le_mul_of_nonneg_right h12 (ovalD_nonneg w h a b))
    linarith

/-- Witness for the amended C4 theorem at the concrete mask size 2 by 2
with a feather of 1 pixel. -/
theorem ovalMask_shape_witness :
    ovalMask 2 2 1 0 0 = 0 ∧
    ovalMask 2 2 1 (2 - 1) 0 = 0 ∧
    ovalMask 2 2 1 0 (2 - 1) = 0 ∧
    (14 ≤ 2 → ovalMask 2 2 1 (2 - 1) (2 - 1) = 0) ∧
    (2 % 2 = 0 → 2 % 2 = 0 → ((1 : ℕ) : ℝ) ≤ max (ovalRx 2) (ovalRy 2) →
      ovalMask 2 2 1 (2 / 2) (2 / 2) = 255) ∧
    (∀ a b s1 s2 : ℝ, 0 ≤ s1 → s1 ≤ s2 →
      ovalMaskAt 2 2 1 (ovalCx 2 + s2 * (a - ovalCx 2))
          (ovalCy 2 + s2 * (b - ovalCy 2))
        ≤ ovalMaskAt 2 2 1 (ovalCx 2 + s1 * (a - ovalCx 2))
          (ovalCy 2 + s1 * (b - ovalCy 2))) :=
  ovalMask_shape 2 2 1 (by norm_num) (by norm_num)
